import Mathlib

/-!
Verification of the streak/gap ledger, signal classifier and suggestion
selection of `src/app/painel_ranking_roleta_memoria.py` (IACFO/roleta).

The Python module is a Streamlit script; its computational core is shallowly
embedded here:
* numbers are `Nat` (input validation keeps them in `[0,36]`);
* Python `float` means are embedded as `ℚ` (the spec fixes the incremental
  mean formula `(mean*count + value)/(count+1)`, which is exact over `ℚ`);
* Python dict/session state becomes explicit state passing;
* the per-user store document becomes an association list.
-/

namespace Roleta

/-! ## Category model (`tipos_do_numero` and friends) -/

/-- The monitored category names, `TIPOS` in the source (18 of them: two
per Cor/Paridade/Metade axis and three per Dúzia/Coluna/Cavalos/Setor axis). -/
def TIPOS : List String :=
  ["Vermelho", "Preto", "Par", "Ímpar", "Metade 1-18", "Metade 19-36",
   "Dúzia 1", "Dúzia 2", "Dúzia 3",
   "Coluna 1", "Coluna 2", "Coluna 3",
   "Cavalos 1-4-7", "Cavalos 2-5-8", "Cavalos 3-6-9",
   "Voisins", "Tiers", "Orphelins"]

/-- Red numbers (`vermelho` set in the source). -/
def vermelho : List Nat := [1,3,5,7,9,12,14,16,18,19,21,23,25,27,30,32,34,36]

/-- Black numbers (`preto` set in the source). -/
def preto : List Nat := [2,4,6,8,10,11,13,15,17,20,22,24,26,28,29,31,33,35]

/-- Source `coluna_map`: column name of `n ∈ 1..36`, `Coluna ((n-1)%3)+1`. -/
def coluna_map (n : Nat) : String :=
  match (n - 1) % 3 with
  | 0 => "Coluna 1"
  | 1 => "Coluna 2"
  | _ => "Coluna 3"

def voisinsNums : List Nat := [22,18,29,7,28,12,35,3,26,0,32,15,19,4,21,2,25]
def tiersNums : List Nat := [27,13,36,11,30,8,23,10,5,24,16,33]
def orphelinsNums : List Nat := [1,20,14,31,9,17,34,6]

/-- Source `setor_map`: wheel sector of a number (0 belongs to Voisins). -/
def setor_map (n : Nat) : Option String :=
  if n ∈ voisinsNums then some "Voisins"
  else if n ∈ tiersNums then some "Tiers"
  else if n ∈ orphelinsNums then some "Orphelins"
  else none

/-- Source `cavalo_do_numero`: horse group by last digit; 0 and digits 0 map to none. -/
def cavalo_do_numero (n : Nat) : Option String :=
  if n = 0 then none
  else
    let d := n % 10
    if d = 1 ∨ d = 4 ∨ d = 7 then some "Cavalos 1-4-7"
    else if d = 2 ∨ d = 5 ∨ d = 8 then some "Cavalos 2-5-8"
    else if d = 3 ∨ d = 6 ∨ d = 9 then some "Cavalos 3-6-9"
    else none

/-- Source `metade_do_numero`: half of the wheel; 0 maps to none. -/
def metade_do_numero (n : Nat) : Option String :=
  if n = 0 then none
  else if 1 ≤ n ∧ n ≤ 18 then some "Metade 1-18" else some "Metade 19-36"

/-- Source `tipos_do_numero`: all categories a number belongs to, in source order. -/
def tipos_do_numero (n : Nat) : List String :=
  (if n ∈ vermelho then ["Vermelho"] else if n ∈ preto then ["Preto"] else [])
  ++ (if n ≠ 0 then [if n % 2 = 0 then "Par" else "Ímpar"] else [])
  ++ (match metade_do_numero n with | some m => [m] | none => [])
  ++ (if 1 ≤ n ∧ n ≤ 12 then ["Dúzia 1"]
      else if 13 ≤ n ∧ n ≤ 24 then ["Dúzia 2"]
      else if 25 ≤ n ∧ n ≤ 36 then ["Dúzia 3"] else [])
  ++ (if n ≠ 0 then [coluna_map n] else [])
  ++ (match setor_map n with | some s => [s] | none => [])
  ++ (match cavalo_do_numero n with | some c => [c] | none => [])

/-- Python `s.startswith(p)`, embedded over character lists so that proofs
can evaluate it. -/
def startsWithL (s p : String) : Bool := p.data.isPrefixOf s.data

/-- Source `grupo_de`: the axis (group) of a category name. -/
def grupo_de (tipo : String) : String :=
  if tipo = "Vermelho" ∨ tipo = "Preto" then "Cor"
  else if tipo = "Par" ∨ tipo = "Ímpar" then "Paridade"
  else if startsWithL tipo "Metade" then "Metade"
  else if startsWithL tipo "Dúzia" then "Dúzia"
  else if startsWithL tipo "Coluna" then "Coluna"
  else if startsWithL tipo "Cavalos" then "Cavalos"
  else if tipo = "Voisins" ∨ tipo = "Tiers" ∨ tipo = "Orphelins" then "Setor"
  else "Outro"

/-! ## Streak/gap ledger -/

/-- Durable per-category record (`store[t]` in the source): maximum streak,
mean streak, streak count, maximum gap, mean gap, gap count.  Maxima are `Int`
because the legacy migration path injects raw stored integers. -/
structure Rec where
  seq_max : Int
  seq_media : ℚ
  seq_n : Nat
  aus_max : Int
  aus_media : ℚ
  aus_n : Nat
  deriving Repr, DecidableEq

/-- The all-zero record (fresh store entry / after the reset button). -/
def zeroRec : Rec := ⟨0, 0, 0, 0, 0, 0⟩

/-- Per-category pass state: `cur_seq[t]`, `cur_gap[t]` and the durable
record `store[t]` (field named `record` since `rec` is reserved in Lean). -/
structure CatState where
  cur_seq : Nat
  cur_gap : Nat
  record : Rec
  deriving Repr, DecidableEq

/-- Source `update_mean(old_mean, old_n, val) = ((old_mean*old_n + val)/(old_n+1), old_n+1)`. -/
def update_mean (old_mean : ℚ) (old_n : Nat) (val : ℚ) : ℚ × Nat :=
  ((old_mean * old_n + val) / (old_n + 1), old_n + 1)

/-- One iteration of the ledger loop body for one category, where `active`
says whether the current number belongs to the category (`t in ativos`). -/
def stepCat (s : CatState) (active : Bool) : CatState :=
  if active then
    let rec1 :=
      if s.cur_gap > 0 then
        let m := if (s.cur_gap : Int) > s.record.aus_max then (s.cur_gap : Int) else s.record.aus_max
        let p := update_mean s.record.aus_media s.record.aus_n (s.cur_gap : ℚ)
        { s.record with aus_max := m, aus_media := p.1, aus_n := p.2 }
      else s.record
    { cur_seq := s.cur_seq + 1, cur_gap := 0, record := rec1 }
  else
    let rec1 :=
      if s.cur_seq > 0 then
        let m := if (s.cur_seq : Int) > s.record.seq_max then (s.cur_seq : Int) else s.record.seq_max
        let p := update_mean s.record.seq_media s.record.seq_n (s.cur_seq : ℚ)
        { s.record with seq_max := m, seq_media := p.1, seq_n := p.2 }
      else s.record
    { cur_seq := 0, cur_gap := s.cur_gap + 1, record := rec1 }

/-- Run the per-category ledger from a given state over a membership trace. -/
def runCatFrom (s : CatState) (bs : List Bool) : CatState := bs.foldl stepCat s

/-- Membership test `t in set(tipos_do_numero(n))`. -/
def ativo (t : String) (n : Nat) : Bool := (tipos_do_numero n).contains t

/-- One iteration of the source's outer loop `for n in numeros`, updating the
state of every category at once (the source updates `cur_seq`, `cur_gap` and
`store` keyed by `t`; here the joint state is a function of `t`). -/
def ledgerStep (st : String → CatState) (n : Nat) : String → CatState :=
  fun t => stepCat (st t) (ativo t n)

/-- The whole ledger pass `for n in numeros: ...` over joint state. -/
def ledgerRun (st : String → CatState) (ns : List Nat) : String → CatState :=
  ns.foldl ledgerStep st

/-- Ledger pass for one category starting from durable record `rec0` with
both transient counters at 0, as in the source (`cur_seq = cur_gap = 0`). -/
def ledgerCat (rec0 : Rec) (ns : List Nat) (t : String) : CatState :=
  runCatFrom ⟨0, 0, rec0⟩ (ns.map (ativo t))

/-- The joint pass agrees with the per-category pass (the loop body updates
each category independently). -/
theorem ledgerRun_eq_ledgerCat (st : String → CatState) (ns : List Nat) (t : String) :
    ledgerRun st ns t = runCatFrom (st t) (ns.map (ativo t)) := by
  induction ns generalizing st with
  | nil => rfl
  | cons n ns ih => simpa [ledgerRun, runCatFrom, ledgerStep] using ih (ledgerStep st n)

/-- Joint pass state over a store snapshot, with both counters zeroed (the
source initialises `cur_seq = {t:0}` and `cur_gap = {t:0}`). -/
def stateOfStore (store : String → Rec) : String → CatState :=
  fun t => ⟨0, 0, store t⟩

/-- The all-zero joint initial state (all-zero durable records). -/
def ledger0 : String → CatState := stateOfStore (fun _ => zeroRec)

/-! ## Spec-side description of closed segments

These definitions are modelled from the claims' words (maximal runs of
active outcomes followed by at least one inactive outcome), to be compared
with the ledger computed from the source. -/

/-- Lengths, in order, of the maximal runs of `true` that are followed by at
least one `false`, given that a `true`-run of length `cur` is already open.
The trailing open run is never emitted. -/
def closedRunsAux (cur : Nat) : List Bool → List Nat
  | [] => []
  | true :: rest => closedRunsAux (cur + 1) rest
  | false :: rest =>
      if cur > 0 then cur :: closedRunsAux 0 rest else closedRunsAux 0 rest

/-- Lengths of the closed (active) streak segments of a membership trace. -/
def closedStreakLens (bs : List Bool) : List Nat := closedRunsAux 0 bs

/-- Lengths of the closed gap segments: maximal runs of inactive outcomes
followed by at least one active outcome. -/
def closedGapLens (bs : List Bool) : List Nat :=
  closedRunsAux 0 (bs.map (fun b => !b))

/-! ## Ledger lemmas -/

/-- Swap the streak and gap halves of a record. -/
def swapRec (r : Rec) : Rec :=
  ⟨r.aus_max, r.aus_media, r.aus_n, r.seq_max, r.seq_media, r.seq_n⟩

/-- Swap the streak and gap halves of a pass state. -/
def swapSt (s : CatState) : CatState := ⟨s.cur_gap, s.cur_seq, swapRec s.record⟩

theorem stepCat_swap (s : CatState) (b : Bool) :
    stepCat (swapSt s) (!b) = swapSt (stepCat s b) := by
  cases b <;> simp [stepCat, swapSt, swapRec] <;> split_ifs <;> rfl

theorem runCatFrom_swap (s : CatState) (bs : List Bool) :
    runCatFrom (swapSt s) (bs.map (fun b => !b)) = swapSt (runCatFrom s bs) := by
  induction bs generalizing s with
  | nil => rfl
  | cons b rest ih =>
      simpa [runCatFrom, stepCat_swap] using ih (stepCat s b)

theorem runCatFrom_cons (s : CatState) (b : Bool) (bs : List Bool) :
    runCatFrom s (b :: bs) = runCatFrom (stepCat s b) bs := rfl

/-- An active outcome never touches the streak half of the durable record:
it only advances `cur_seq` and clears `cur_gap`. -/
theorem stepCat_true_fields (s : CatState) :
    (stepCat s true).cur_seq = s.cur_seq + 1 ∧ (stepCat s true).cur_gap = 0 ∧
    (stepCat s true).record.seq_max = s.record.seq_max ∧
    (stepCat s true).record.seq_media = s.record.seq_media ∧
    (stepCat s true).record.seq_n = s.record.seq_n := by
  simp only [stepCat, if_true]
  split_ifs <;> simp

/-- An inactive outcome never touches the gap half of the durable record:
it only advances `cur_gap` and clears `cur_seq`. -/
theorem stepCat_false_fields (s : CatState) :
    (stepCat s false).cur_seq = 0 ∧ (stepCat s false).cur_gap = s.cur_gap + 1 ∧
    (stepCat s false).record.aus_max = s.record.aus_max ∧
    (stepCat s false).record.aus_media = s.record.aus_media ∧
    (stepCat s false).record.aus_n = s.record.aus_n := by
  simp only [stepCat, Bool.false_eq_true, if_false]
  split_ifs <;> simp

/-- When an inactive outcome closes an open streak, the mean and count are
updated by the incremental mean formula. -/
theorem stepCat_false_fold (s : CatState) (hc : 0 < s.cur_seq) :
    (stepCat s false).record.seq_n = s.record.seq_n + 1 ∧
    (stepCat s false).record.seq_media
      = (s.record.seq_media * s.record.seq_n + s.cur_seq)
          / (s.record.seq_n + 1) := by
  simp [stepCat, hc, update_mean]

theorem stepCat_false_nofold (s : CatState) (hc : s.cur_seq = 0) :
    (stepCat s false).record.seq_n = s.record.seq_n ∧
    (stepCat s false).record.seq_media = s.record.seq_media := by
  simp [stepCat, hc]

/-- Core streak invariant of the pass: the closed-run count is added to
`seq_n` and the closed-run lengths are added to the running sum
`seq_media * seq_n`. -/
theorem runCatFrom_seq_inv (bs : List Bool) :
    ∀ s : CatState,
      (runCatFrom s bs).record.seq_n
        = s.record.seq_n + (closedRunsAux s.cur_seq bs).length ∧
      (runCatFrom s bs).record.seq_media * (runCatFrom s bs).record.seq_n
        = s.record.seq_media * s.record.seq_n
          + ((closedRunsAux s.cur_seq bs).map (fun v => (v : ℚ))).sum := by
  induction bs with
  | nil => intro s; simp [runCatFrom, closedRunsAux]
  | cons b rest ih =>
      intro s
      cases b with
      | true =>
          obtain ⟨h1, _, _, h4, h5⟩ := stepCat_true_fields s
          have h := ih (stepCat s true)
          rw [runCatFrom_cons]
          refine ⟨?_, ?_⟩
          · rw [h.1, h5, h1]; simp [closedRunsAux]
          · rw [h.2, h4, h5, h1]; simp [closedRunsAux]
      | false =>
          have h := ih (stepCat s false)
          have hcs : (stepCat s false).cur_seq = 0 := (stepCat_false_fields s).1
          rw [runCatFrom_cons]
          by_cases hc : 0 < s.cur_seq
          · obtain ⟨h1, h2⟩ := stepCat_false_fold s hc
            have hne : ((s.record.seq_n : ℚ) + 1) ≠ 0 := by positivity
            refine ⟨?_, ?_⟩
            · rw [h.1, h1, hcs]
              simp [closedRunsAux, hc]
              omega
            · rw [h.2, h1, h2, hcs]
              simp only [closedRunsAux, hc, if_pos, List.map_cons, List.sum_cons]
              push_cast
              field_simp
              ring
          · have hc0 : s.cur_seq = 0 := by omega
            obtain ⟨h1, h2⟩ := stepCat_false_nofold s hc0
            refine ⟨?_, ?_⟩
            · rw [h.1, h1, hcs]; simp [closedRunsAux, hc0]
            · rw [h.2, h1, h2, hcs]; simp [closedRunsAux, hc0]

/-- Statistics of a pass from the all-zero record: `seq_n`/`aus_n` count the
closed segments and `seq_media`/`aus_media` carry their exact sums. -/
theorem runCat_zero_stats (bs : List Bool) :
    (runCatFrom ⟨0, 0, zeroRec⟩ bs).record.seq_n = (closedStreakLens bs).length ∧
    (runCatFrom ⟨0, 0, zeroRec⟩ bs).record.seq_media * (closedStreakLens bs).length
      = ((closedStreakLens bs).map (fun v => (v : ℚ))).sum ∧
    (runCatFrom ⟨0, 0, zeroRec⟩ bs).record.aus_n = (closedGapLens bs).length ∧
    (runCatFrom ⟨0, 0, zeroRec⟩ bs).record.aus_media * (closedGapLens bs).length
      = ((closedGapLens bs).map (fun v => (v : ℚ))).sum := by
  have hseq := runCatFrom_seq_inv bs ⟨0, 0, zeroRec⟩
  have hswap := runCatFrom_swap ⟨0, 0, zeroRec⟩ bs
  have hzero : swapSt ⟨0, 0, zeroRec⟩ = ⟨0, 0, zeroRec⟩ := rfl
  have hseqg := runCatFrom_seq_inv (bs.map (fun b => !b)) ⟨0, 0, zeroRec⟩
  rw [hzero] at hswap
  rw [hswap] at hseqg
  have hproj1 : ∀ s : CatState, (swapSt s).record.seq_n = s.record.aus_n :=
    fun s => rfl
  have hproj2 : ∀ s : CatState,
      (swapSt s).record.seq_media = s.record.aus_media := fun s => rfl
  rw [hproj1, hproj2] at hseqg
  have hs1 : (runCatFrom ⟨0, 0, zeroRec⟩ bs).record.seq_n
      = (closedStreakLens bs).length := by
    simpa [zeroRec, closedStreakLens] using hseq.1
  have hg1 : (runCatFrom ⟨0, 0, zeroRec⟩ bs).record.aus_n
      = (closedGapLens bs).length := by
    simpa [zeroRec, closedGapLens] using hseqg.1
  have hg2 : (runCatFrom ⟨0, 0, zeroRec⟩ bs).record.aus_media
        * ((closedGapLens bs).length : ℚ)
      = ((closedGapLens bs).map (fun v => (v : ℚ))).sum := by
    have h2 := hseqg.2
    rw [hg1] at h2
    simpa [zeroRec, closedGapLens] using h2
  refine ⟨hs1, ?_, hg1, hg2⟩
  have h2 := hseq.2
  rw [hs1] at h2
  simpa [zeroRec, closedStreakLens] using h2

/-- C1: after the ledger's single pass from all-zero durable records,
`seq_n` (streak_count) is the number of maximal active runs followed by at
least one inactive outcome, and `aus_n` (gap_count) the number of maximal
inactive runs followed by at least one active outcome; an active outcome
(which opens or extends the trailing streak run) never changes `seq_max`,
`seq_media` or `seq_n` and is visible only in `cur_seq`, and symmetrically
an inactive outcome only advances `cur_gap`. -/
theorem C1_streak_count_closed_runs :
    (∀ (ns : List Nat) (t : String),
        (ledgerRun ledger0 ns t).record.seq_n
          = (closedStreakLens (ns.map (ativo t))).length ∧
        (ledgerRun ledger0 ns t).record.aus_n
          = (closedGapLens (ns.map (ativo t))).length) ∧
    (∀ s : CatState,
        (stepCat s true).record.seq_max = s.record.seq_max ∧
        (stepCat s true).record.seq_media = s.record.seq_media ∧
        (stepCat s true).record.seq_n = s.record.seq_n ∧
        (stepCat s true).cur_seq = s.cur_seq + 1) ∧
    (∀ s : CatState,
        (stepCat s false).record.aus_max = s.record.aus_max ∧
        (stepCat s false).record.aus_media = s.record.aus_media ∧
        (stepCat s false).record.aus_n = s.record.aus_n ∧
        (stepCat s false).cur_gap = s.cur_gap + 1) := by
  refine ⟨fun ns t => ?_, fun s => ?_, fun s => ?_⟩
  · rw [ledgerRun_eq_ledgerCat]
    have h := runCat_zero_stats (ns.map (ativo t))
    exact ⟨h.1, h.2.2.1⟩
  · obtain ⟨h1, _, h3, h4, h5⟩ := stepCat_true_fields s
    exact ⟨h3, h4, h5, h1⟩
  · obtain ⟨_, h2, h3, h4, h5⟩ := stepCat_false_fields s
    exact ⟨h3, h4, h5, h2⟩

/-- After processing at least one outcome, exactly one of the two transient
counters is nonzero. -/
theorem runCatFrom_xor (bs : List Bool) (hbs : bs ≠ []) :
    ∀ s : CatState,
      ((runCatFrom s bs).cur_seq = 0 ∧ (runCatFrom s bs).cur_gap ≠ 0) ∨
      ((runCatFrom s bs).cur_seq ≠ 0 ∧ (runCatFrom s bs).cur_gap = 0) := by
  induction bs with
  | nil => exact absurd rfl hbs
  | cons b rest ih =>
      intro s
      rw [runCatFrom_cons]
      rcases eq_or_ne rest [] with hr | hr
      · subst hr
        cases b
        · left
          refine ⟨(stepCat_false_fields s).1, ?_⟩
          have := (stepCat_false_fields s).2.1
          simp only [runCatFrom, List.foldl_nil]
          omega
        · right
          refine ⟨?_, (stepCat_true_fields s).2.1⟩
          have := (stepCat_true_fields s).1
          simp only [runCatFrom, List.foldl_nil]
          omega
      · exact ih hr _

/-- C2: for every sequence of in-range outcomes and every monitored
category, after every non-empty prefix exactly one of `cur_seq` and
`cur_gap` is nonzero, and at the empty prefix both are zero. -/
theorem C2_exactly_one_counter (ns : List Nat) (t : String) (rec0 : Rec)
    (ht : t ∈ TIPOS) (hin : ∀ n ∈ ns, n ≤ 36) :
    (∀ p q : List Nat, ns = p ++ q → p ≠ [] →
        ((ledgerCat rec0 p t).cur_seq = 0 ∧ (ledgerCat rec0 p t).cur_gap ≠ 0) ∨
        ((ledgerCat rec0 p t).cur_seq ≠ 0 ∧ (ledgerCat rec0 p t).cur_gap = 0)) ∧
    (ledgerCat rec0 [] t).cur_seq = 0 ∧ (ledgerCat rec0 [] t).cur_gap = 0 := by
  refine ⟨fun p q hpq hp => ?_, rfl, rfl⟩
  exact runCatFrom_xor (p.map (ativo t)) (by simpa using hp) _

/-- Witness for C2 at the sequence `[1, 2]` and category `Vermelho`: after
the prefix `[1, 2]` the gap counter alone is nonzero. -/
theorem C2_exactly_one_counter_witness :
    ((ledgerCat zeroRec [1, 2] "Vermelho").cur_seq = 0 ∧
     (ledgerCat zeroRec [1, 2] "Vermelho").cur_gap ≠ 0) ∨
    ((ledgerCat zeroRec [1, 2] "Vermelho").cur_seq ≠ 0 ∧
     (ledgerCat zeroRec [1, 2] "Vermelho").cur_gap = 0) :=
  (C2_exactly_one_counter [1, 2] "Vermelho" zeroRec (by decide)
      (by decide)).1 [1, 2] [] (by simp) (by simp)

/-- The gap-side analogue of `stepCat_false_fold`. -/
theorem stepCat_true_fold (s : CatState) (hc : 0 < s.cur_gap) :
    (stepCat s true).record.aus_n = s.record.aus_n + 1 ∧
    (stepCat s true).record.aus_media
      = (s.record.aus_media * s.record.aus_n + s.cur_gap)
          / (s.record.aus_n + 1) := by
  simp [stepCat, hc, update_mean]

/-- C7: a closing streak (gap) segment of length `v` updates the durable
record by `mean := (mean*count + v)/(count+1)` and `count := count + 1`, and
consequently, after a pass from all-zero records, the mean is exactly the
arithmetic mean (over `ℚ`) of the counted closed segment lengths. -/
theorem C7_incremental_mean :
    (∀ s : CatState, 0 < s.cur_seq →
        (stepCat s false).record.seq_media
          = (s.record.seq_media * s.record.seq_n + s.cur_seq)
              / (s.record.seq_n + 1) ∧
        (stepCat s false).record.seq_n = s.record.seq_n + 1) ∧
    (∀ s : CatState, 0 < s.cur_gap →
        (stepCat s true).record.aus_media
          = (s.record.aus_media * s.record.aus_n + s.cur_gap)
              / (s.record.aus_n + 1) ∧
        (stepCat s true).record.aus_n = s.record.aus_n + 1) ∧
    (∀ (ns : List Nat) (t : String),
        (ledgerRun ledger0 ns t).record.seq_n
          = (closedStreakLens (ns.map (ativo t))).length ∧
        ((ledgerRun ledger0 ns t).record.seq_n ≠ 0 →
          (ledgerRun ledger0 ns t).record.seq_media
            = ((closedStreakLens (ns.map (ativo t))).map (fun v => (v : ℚ))).sum
                / ((ledgerRun ledger0 ns t).record.seq_n : ℚ)) ∧
        (ledgerRun ledger0 ns t).record.aus_n
          = (closedGapLens (ns.map (ativo t))).length ∧
        ((ledgerRun ledger0 ns t).record.aus_n ≠ 0 →
          (ledgerRun ledger0 ns t).record.aus_media
            = ((closedGapLens (ns.map (ativo t))).map (fun v => (v : ℚ))).sum
                / ((ledgerRun ledger0 ns t).record.aus_n : ℚ))) := by
  refine ⟨fun s hc => ?_, fun s hc => ?_, fun ns t => ?_⟩
  · obtain ⟨h1, h2⟩ := stepCat_false_fold s hc
    exact ⟨h2, h1⟩
  · obtain ⟨h1, h2⟩ := stepCat_true_fold s hc
    exact ⟨h2, h1⟩
  · rw [ledgerRun_eq_ledgerCat,
      show ledger0 t = (⟨0, 0, zeroRec⟩ : CatState) from rfl]
    obtain ⟨hs1, hs2, hg1, hg2⟩ := runCat_zero_stats (ns.map (ativo t))
    refine ⟨hs1, fun hne => ?_, hg1, fun hne => ?_⟩
    · rw [hs1] at hne ⊢
      have hq : ((closedStreakLens (ns.map (ativo t))).length : ℚ) ≠ 0 := by
        exact_mod_cast hne
      rw [eq_div_iff hq]
      exact hs2
    · rw [hg1] at hne ⊢
      have hq : ((closedGapLens (ns.map (ativo t))).length : ℚ) ≠ 0 := by
        exact_mod_cast hne
      rw [eq_div_iff hq]
      exact hg2

/-- Witness for C7: a concrete fold step on a streak of length 2, and the
exact mean over the sequence `[1, 2, 1]` for category `Ímpar`. -/
theorem C7_incremental_mean_witness :
    (stepCat ⟨2, 0, zeroRec⟩ false).record.seq_media
      = (zeroRec.seq_media * zeroRec.seq_n + (2 : Nat))
          / (zeroRec.seq_n + 1) ∧
    (ledgerRun ledger0 [1, 2, 1] "Ímpar").record.seq_media
      = ((closedStreakLens ([1, 2, 1].map (ativo "Ímpar"))).map
            (fun v => (v : ℚ))).sum
          / ((ledgerRun ledger0 [1, 2, 1] "Ímpar").record.seq_n : ℚ) :=
  ⟨(C7_incremental_mean.1 ⟨2, 0, zeroRec⟩ (by decide)).1,
   (C7_incremental_mean.2.2 [1, 2, 1] "Ímpar").2.1 (by decide)⟩

/-- The transient counters after a pass depend only on the starting
counters, never on the durable record. -/
theorem runCatFrom_cur_eq (bs : List Bool) :
    ∀ s s' : CatState, s.cur_seq = s'.cur_seq → s.cur_gap = s'.cur_gap →
      (runCatFrom s bs).cur_seq = (runCatFrom s' bs).cur_seq ∧
      (runCatFrom s bs).cur_gap = (runCatFrom s' bs).cur_gap := by
  induction bs with
  | nil => intro s s' h1 h2; exact ⟨h1, h2⟩
  | cons b rest ih =>
      intro s s' h1 h2
      rw [runCatFrom_cons, runCatFrom_cons]
      cases b
      · exact ih _ _
          (by rw [(stepCat_false_fields s).1, (stepCat_false_fields s').1])
          (by rw [(stepCat_false_fields s).2.1, (stepCat_false_fields s').2.1, h2])
      · exact ih _ _
          (by rw [(stepCat_true_fields s).1, (stepCat_true_fields s').1, h1])
          (by rw [(stepCat_true_fields s).2.1, (stepCat_true_fields s').2.1])

/-- C9: the RunState produced by replaying a sequence is independent of the
durable record store: any two starting records give the same `cur_seq` and
`cur_gap` for every category, and in particular a replay against zeroed
records reproduces the from-scratch RunState. -/
theorem C9_runstate_independent_of_store (ns : List Nat) (t : String)
    (r1 r2 : Rec) :
    (ledgerCat r1 ns t).cur_seq = (ledgerCat r2 ns t).cur_seq ∧
    (ledgerCat r1 ns t).cur_gap = (ledgerCat r2 ns t).cur_gap ∧
    (ledgerCat r1 ns t).cur_seq = (ledgerCat zeroRec ns t).cur_seq ∧
    (ledgerCat r1 ns t).cur_gap = (ledgerCat zeroRec ns t).cur_gap := by
  obtain ⟨ha, hb⟩ := runCatFrom_cur_eq (ns.map (ativo t))
    ⟨0, 0, r1⟩ ⟨0, 0, r2⟩ rfl rfl
  obtain ⟨hc, hd⟩ := runCatFrom_cur_eq (ns.map (ativo t))
    ⟨0, 0, r1⟩ ⟨0, 0, zeroRec⟩ rfl rfl
  exact ⟨ha, hb, hc, hd⟩

/-! ## Signal classifier (`SEQ_RULES`, `ABS_RULES`, `classify_seq`, `classify_abs`) -/

/-- One row of the source's `SEQ_RULES` table. -/
structure SeqRule where
  neutro_max : Nat
  med : Nat × Nat
  forte : Nat × Nat
  ext : Nat × Nat
  deriving Repr, DecidableEq

/-- Source `SEQ_RULES` dictionary (the `10**6` upper cap kept verbatim). -/
def SEQ_RULES (g : String) : Option SeqRule :=
  if g = "Setor" then some ⟨2, (3, 5), (6, 7), (8, 1000000)⟩
  else if g = "Cor" then some ⟨2, (3, 5), (6, 9), (10, 1000000)⟩
  else if g = "Paridade" then some ⟨2, (3, 5), (6, 9), (10, 1000000)⟩
  else if g = "Metade" then some ⟨2, (3, 5), (6, 9), (10, 1000000)⟩
  else if g = "Coluna" then some ⟨2, (3, 4), (5, 6), (7, 1000000)⟩
  else if g = "Dúzia" then some ⟨2, (3, 4), (5, 6), (7, 1000000)⟩
  else if g = "Cavalos" then some ⟨1, (2, 3), (4, 4), (5, 1000000)⟩
  else none

/-- One row of the source's `ABS_RULES` table. -/
structure AbsRule where
  neutro : Nat
  oposto_ini : Nat
  oposto_fim : Nat
  retorno_min : Nat
  deriving Repr, DecidableEq

/-- Source `ABS_RULES` dictionary (Cor/Paridade/Metade intentionally absent;
they reuse the sequence gradation). -/
def ABS_RULES (g : String) : Option AbsRule :=
  if g = "Setor" then some ⟨4, 5, 22, 23⟩
  else if g = "Coluna" then some ⟨4, 5, 15, 16⟩
  else if g = "Dúzia" then some ⟨4, 5, 15, 16⟩
  else if g = "Cavalos" then some ⟨4, 5, 10, 11⟩
  else none

/-- Source `classify_seq`: tier label and justification for a streak length. -/
def classify_seq (tipo : String) (seq : Nat) : String × String :=
  match SEQ_RULES (grupo_de tipo) with
  | none => ("neutro", "")
  | some r =>
    if seq ≤ r.neutro_max then
      ("neutro", "Neutro até " ++ toString r.neutro_max)
    else if r.med.1 ≤ seq ∧ seq ≤ r.med.2 then
      ("quebrar_médio", "Quebrar sequência (médio)")
    else if r.forte.1 ≤ seq ∧ seq ≤ r.forte.2 then
      ("quebrar_forte", "Quebra forte")
    else if r.ext.1 ≤ seq then ("quebrar_extremo", "Quebra extrema")
    else ("neutro", "")

/-- Source `classify_abs`: tier label and justification for a gap length. -/
def classify_abs (tipo : String) (aus : Nat) : String × String :=
  if grupo_de tipo = "Cor" ∨ grupo_de tipo = "Paridade" ∨ grupo_de tipo = "Metade" then
    match SEQ_RULES (grupo_de tipo) with
    | none => ("neutro", "")
    | some r =>
      if aus ≤ r.neutro_max then ("neutro", "Ausência neutra")
      else if r.med.1 ≤ aus ∧ aus ≤ r.med.2 then
        ("retorno_médio", "Retorno (ausência ~média 3–5)")
      else if r.forte.1 ≤ aus ∧ aus ≤ r.forte.2 then
        ("retorno_forte", "Retorno forte (6–9)")
      else if r.ext.1 ≤ aus then ("retorno_extremo", "Retorno extremo (10+)")
      else ("neutro", "")
  else
    match ABS_RULES (grupo_de tipo) with
    | none => ("neutro", "")
    | some r =>
      if aus ≤ r.neutro then ("neutro", "Neutro até " ++ toString r.neutro)
      else if r.oposto_ini ≤ aus ∧ aus ≤ r.oposto_fim then
        ("oposto", "Apostar **OPOSTO** (" ++ toString r.oposto_ini ++ "–"
            ++ toString r.oposto_fim ++ ")")
      else if r.retorno_min ≤ aus then
        ("retorno", "Quebrar ausência (≥ " ++ toString r.retorno_min ++ ")")
      else ("neutro", "")

/-- Modelled from the claim: the continuity threshold table, one row
`(neutral-max, medium range, strong range, extreme-start)` per axis. -/
def specSeqTable (g : String) : Option (Nat × (Nat × Nat) × (Nat × Nat) × Nat) :=
  if g = "Setor" then some (2, (3, 5), (6, 7), 8)
  else if g = "Cor" ∨ g = "Paridade" ∨ g = "Metade" then some (2, (3, 5), (6, 9), 10)
  else if g = "Coluna" ∨ g = "Dúzia" then some (2, (3, 4), (5, 6), 7)
  else if g = "Cavalos" then some (1, (2, 3), (4, 4), 5)
  else none

/-- Modelled from the claim: per-axis `(oposto_fim, retorno_min)` for the
three-tier absence scale. -/
def specAbsTable (g : String) : Option (Nat × Nat) :=
  if g = "Setor" then some (22, 23)
  else if g = "Coluna" ∨ g = "Dúzia" then some (15, 16)
  else if g = "Cavalos" then some (10, 11)
  else none

/-- Characterisation of `classify_seq` against its rule row, for contiguous
rows. -/
theorem classify_seq_char (t : String) (nm ml mh fl fh el : Nat)
    (hr : SEQ_RULES (grupo_de t) = some ⟨nm, (ml, mh), (fl, fh), (el, 1000000)⟩)
    (e1 : ml = nm + 1) (e2 : fl = mh + 1) (e3 : el = fh + 1)
    (e4 : ml ≤ mh + 1) (e5 : fl ≤ fh + 1) (s : Nat) :
    (classify_seq t s).1 ∈
      (["neutro", "quebrar_médio", "quebrar_forte", "quebrar_extremo"] : List String) ∧
    ((classify_seq t s).1 = "neutro" ↔ s ≤ nm) ∧
    ((classify_seq t s).1 = "quebrar_médio" ↔ ml ≤ s ∧ s ≤ mh) ∧
    ((classify_seq t s).1 = "quebrar_forte" ↔ fl ≤ s ∧ s ≤ fh) ∧
    ((classify_seq t s).1 = "quebrar_extremo" ↔ el ≤ s) := by
  simp only [classify_seq, hr]
  split_ifs <;> simp_all <;> omega

/-- Characterisation of `classify_abs` on the Cor/Paridade/Metade axes: it
reuses the continuity row of the same axis with relabelled tiers. -/
theorem classify_abs_char_cpm (t : String)
    (hcpm : grupo_de t = "Cor" ∨ grupo_de t = "Paridade" ∨ grupo_de t = "Metade")
    (nm ml mh fl fh el : Nat)
    (hr : SEQ_RULES (grupo_de t) = some ⟨nm, (ml, mh), (fl, fh), (el, 1000000)⟩)
    (e1 : ml = nm + 1) (e2 : fl = mh + 1) (e3 : el = fh + 1)
    (e4 : ml ≤ mh + 1) (e5 : fl ≤ fh + 1) (a : Nat) :
    (classify_abs t a).1 ∈
      (["neutro", "retorno_médio", "retorno_forte", "retorno_extremo"] : List String) ∧
    ((classify_abs t a).1 = "neutro" ↔ a ≤ nm) ∧
    ((classify_abs t a).1 = "retorno_médio" ↔ ml ≤ a ∧ a ≤ mh) ∧
    ((classify_abs t a).1 = "retorno_forte" ↔ fl ≤ a ∧ a ≤ fh) ∧
    ((classify_abs t a).1 = "retorno_extremo" ↔ el ≤ a) := by
  simp only [classify_abs, if_pos hcpm, hr]
  split_ifs <;> simp_all <;> omega

/-- Characterisation of `classify_abs` on the axes governed by `ABS_RULES`. -/
theorem classify_abs_char_abs (t : String)
    (hn : ¬(grupo_de t = "Cor" ∨ grupo_de t = "Paridade" ∨ grupo_de t = "Metade"))
    (fim mn : Nat)
    (hr : ABS_RULES (grupo_de t) = some ⟨4, 5, fim, mn⟩)
    (e1 : mn = fim + 1) (e2 : 5 ≤ fim + 1) (a : Nat) :
    (classify_abs t a).1 ∈ (["neutro", "oposto", "retorno"] : List String) ∧
    ((classify_abs t a).1 = "neutro" ↔ a ≤ 4) ∧
    ((classify_abs t a).1 = "oposto" ↔ 5 ≤ a ∧ a ≤ fim) ∧
    ((classify_abs t a).1 = "retorno" ↔ mn ≤ a) := by
  simp only [classify_abs, if_neg hn, hr]
  split_ifs <;> simp_all <;> omega

/-- C5: for every monitored category and streak length, the continuity
classifier yields exactly one of the four tiers, with the claim's per-axis
breakpoints: neutral iff the length is at most the neutral max, medium,
strong and extreme iff it lies in the respective ranges. -/
theorem C5_continuity_tiers (t : String) (ht : t ∈ TIPOS) (s : Nat) :
    ∃ nm ml mh fl fh el : Nat,
      specSeqTable (grupo_de t) = some (nm, (ml, mh), (fl, fh), el) ∧
      (classify_seq t s).1 ∈
        (["neutro", "quebrar_médio", "quebrar_forte", "quebrar_extremo"] : List String) ∧
      ((classify_seq t s).1 = "neutro" ↔ s ≤ nm) ∧
      ((classify_seq t s).1 = "quebrar_médio" ↔ ml ≤ s ∧ s ≤ mh) ∧
      ((classify_seq t s).1 = "quebrar_forte" ↔ fl ≤ s ∧ s ≤ fh) ∧
      ((classify_seq t s).1 = "quebrar_extremo" ↔ el ≤ s) := by
  fin_cases ht <;>
    first
    | exact ⟨2, 3, 5, 6, 7, 8, by decide,
        classify_seq_char _ 2 3 5 6 7 8 (by decide) rfl rfl rfl
          (by omega) (by omega) s⟩
    | exact ⟨2, 3, 5, 6, 9, 10, by decide,
        classify_seq_char _ 2 3 5 6 9 10 (by decide) rfl rfl rfl
          (by omega) (by omega) s⟩
    | exact ⟨2, 3, 4, 5, 6, 7, by decide,
        classify_seq_char _ 2 3 4 5 6 7 (by decide) rfl rfl rfl
          (by omega) (by omega) s⟩
    | exact ⟨1, 2, 3, 4, 4, 5, by decide,
        classify_seq_char _ 1 2 3 4 4 5 (by decide) rfl rfl rfl
          (by omega) (by omega) s⟩

/-- Witness for C5: a streak of 6 on the Setor axis is classified strong. -/
theorem C5_continuity_tiers_witness : (classify_seq "Voisins" 6).1 = "quebrar_forte" := by
  obtain ⟨nm, ml, mh, fl, fh, el, htab, _, _, _, h3, _⟩ :=
    C5_continuity_tiers "Voisins" (by decide) 6
  rw [show grupo_de "Voisins" = "Setor" from rfl] at htab
  simp only [specSeqTable, if_pos rfl, Option.some.injEq, Prod.mk.injEq] at htab
  obtain ⟨h1, ⟨h2a, h2b⟩, ⟨h2c, h2d⟩, h2e⟩ := htab
  exact h3.mpr (by omega)

/-- C6: for every monitored category and gap length, the absence classifier
on Cor/Paridade/Metade reuses the continuity breakpoints of the same axis
with the return labels, and on Setor/Coluna/Dúzia/Cavalos it is the
three-tier scale neutral (at most 4) / opposite (5..oposto_fim) / return
(at least retorno_min) with the claim's per-axis pairs. -/
theorem C6_absence_tiers (t : String) (ht : t ∈ TIPOS) (a : Nat) :
    ((grupo_de t = "Cor" ∨ grupo_de t = "Paridade" ∨ grupo_de t = "Metade") →
      ∃ nm ml mh fl fh el : Nat,
        SEQ_RULES (grupo_de t) = some ⟨nm, (ml, mh), (fl, fh), (el, 1000000)⟩ ∧
        specSeqTable (grupo_de t) = some (nm, (ml, mh), (fl, fh), el) ∧
        (classify_abs t a).1 ∈
          (["neutro", "retorno_médio", "retorno_forte", "retorno_extremo"] : List String) ∧
        ((classify_abs t a).1 = "neutro" ↔ a ≤ nm) ∧
        ((classify_abs t a).1 = "retorno_médio" ↔ ml ≤ a ∧ a ≤ mh) ∧
        ((classify_abs t a).1 = "retorno_forte" ↔ fl ≤ a ∧ a ≤ fh) ∧
        ((classify_abs t a).1 = "retorno_extremo" ↔ el ≤ a)) ∧
    ((grupo_de t = "Setor" ∨ grupo_de t = "Coluna" ∨ grupo_de t = "Dúzia" ∨
        grupo_de t = "Cavalos") →
      ∃ fim mn : Nat,
        specAbsTable (grupo_de t) = some (fim, mn) ∧
        (classify_abs t a).1 ∈ (["neutro", "oposto", "retorno"] : List String) ∧
        ((classify_abs t a).1 = "neutro" ↔ a ≤ 4) ∧
        ((classify_abs t a).1 = "oposto" ↔ 5 ≤ a ∧ a ≤ fim) ∧
        ((classify_abs t a).1 = "retorno" ↔ mn ≤ a)) := by
  fin_cases ht <;>
    first
    | exact ⟨fun hcpm => ⟨2, 3, 5, 6, 9, 10, by decide, by decide,
          classify_abs_char_cpm _ hcpm 2 3 5 6 9 10 (by decide) rfl rfl rfl
            (by omega) (by omega) a⟩,
        fun habs => absurd habs (by decide)⟩
    | exact ⟨fun hcpm => absurd hcpm (by decide),
        fun habs => ⟨22, 23, by decide,
          classify_abs_char_abs _ (by decide) 22 23 (by decide) rfl
            (by omega) a⟩⟩
    | exact ⟨fun hcpm => absurd hcpm (by decide),
        fun habs => ⟨15, 16, by decide,
          classify_abs_char_abs _ (by decide) 15 16 (by decide) rfl
            (by omega) a⟩⟩
    | exact ⟨fun hcpm => absurd hcpm (by decide),
        fun habs => ⟨10, 11, by decide,
          classify_abs_char_abs _ (by decide) 10 11 (by decide) rfl
            (by omega) a⟩⟩

/-- Witness for C6: a gap of 16 on the Dúzia axis is classified return. -/
theorem C6_absence_tiers_witness : (classify_abs "Dúzia 1" 16).1 = "retorno" := by
  obtain ⟨fim, mn, htab, _, _, _, hret⟩ :=
    (C6_absence_tiers "Dúzia 1" (by decide) 16).2 (by decide)
  have h : (some ((15 : Nat), (16 : Nat)) : Option (Nat × Nat)) = some (fim, mn) := by
    rw [← htab]; decide
  simp only [Option.some.injEq, Prod.mk.injEq] at h
  exact hret.mpr (by omega)

/-! ## Outcome input handler (the Inserir button) -/

/-- Python whitespace characters relevant to `str.strip`. -/
def isSpaceB (c : Char) : Bool :=
  c = ' ' || c = '\t' || c = '\n' || c = '\r'

/-- Python `str.strip()`, embedded over character lists. -/
def stripL (s : String) : String :=
  ⟨((s.data.dropWhile isSpaceB).reverse.dropWhile isSpaceB).reverse⟩

/-- Python `entrada.split(",")`: split on every comma, keeping empty
tokens. -/
def splitCommaAux : List Char → List Char → List String
  | [], acc => [⟨acc.reverse⟩]
  | c :: rest, acc =>
      if c = ',' then ⟨acc.reverse⟩ :: splitCommaAux rest []
      else splitCommaAux rest (c :: acc)

def splitComma (s : String) : List String := splitCommaAux s.data []

/-- Python `str.isdigit()` (ASCII digits, which is all the panel produces):
non-empty and all characters are digits. -/
def isdigitS (s : String) : Bool := !s.data.isEmpty && s.data.all Char.isDigit

/-- Python `int(...)` on a digit string. -/
def toIntDigits (s : String) : Int :=
  s.data.foldl (fun a c => a * 10 + ((c.toNat : Int) - 48)) 0

/-- Source list comprehension
`[int(x.strip()) for x in entrada.split(",") if x.strip().isdigit()]`:
tokens failing `isdigit` are silently dropped. -/
def novosOf (entrada : String) : List Int :=
  (splitComma entrada).filterMap
    (fun x => if isdigitS (stripL x) then some (toIntDigits (stripL x)) else none)

/-- Source Inserir handler: returns the new history and whether the
"Entrada inválida" warning fired.  The `raise ValueError` on `v < 0 or
v > 36` aborts before `historico.extend`, so an out-of-range batch leaves
the history unchanged; the handler never touches the durable store. -/
def inserir (hist : List Int) (entrada : String) : List Int × Bool :=
  if stripL entrada = "" then (hist, false)
  else if (novosOf entrada).any (fun v => v < 0 || 36 < v) then (hist, true)
  else (hist ++ novosOf entrada, false)

/-- C3 counterexample: the batch "5,a,7" contains the non-numeric token
"a", yet it is not rejected in full: the numeric tokens 5 and 7 are
appended to the history and no warning is raised. -/
theorem C3_counterexample :
    (splitComma "5,a,7").contains "a" = true ∧
    isdigitS (stripL "a") = false ∧
    inserir [] "5,a,7" = ([5, 7], false) := by decide

/-- C3 (amended): a batch whose numeric tokens include a value outside
[0,36] is rejected in full with a warning and the history is untouched;
non-numeric tokens are not an error — they are silently dropped — and when
every numeric token is in range the numeric values are appended with no
warning (an all-whitespace entry is ignored). -/
theorem C3_amended_batch_validation (hist : List Int) (entrada : String) :
    (stripL entrada = "" → inserir hist entrada = (hist, false)) ∧
    ((∃ v ∈ novosOf entrada, v < 0 ∨ 36 < v) → stripL entrada ≠ "" →
      inserir hist entrada = (hist, true)) ∧
    ((∀ v ∈ novosOf entrada, 0 ≤ v ∧ v ≤ 36) →
      inserir hist entrada = (hist, false) ∨
      inserir hist entrada = (hist ++ novosOf entrada, false)) := by
  refine ⟨fun h => by simp [inserir, h], fun hex hne => ?_, fun hall => ?_⟩
  · have hany : (novosOf entrada).any (fun v => v < 0 || 36 < v) = true := by
      rw [List.any_eq_true]
      obtain ⟨v, hv, hlt⟩ := hex
      exact ⟨v, hv, by simpa using hlt⟩

    simp [inserir, hne, hany]
  · have hany : (novosOf entrada).any (fun v => v < 0 || 36 < v) = false := by
      rw [List.any_eq_false]
      intro v hv
      have := hall v hv
      simp
      omega
    by_cases h0 : stripL entrada = ""
    · exact Or.inl (by simp [inserir, h0])
    · exact Or.inr (by simp [inserir, h0, hany])

/-- Witness for C3 (amended): the out-of-range batch "37,5" is rejected
whole, and the clean batch " 5, 7 " is appended without warning. -/
theorem C3_amended_batch_validation_witness :
    inserir [] "37,5" = ([], true) ∧
    (inserir [] " 5, 7 " = ([], false) ∨
     inserir [] " 5, 7 " = ([] ++ novosOf " 5, 7 ", false)) :=
  ⟨(C3_amended_batch_validation [] "37,5").2.1 (by decide) (by decide),
   (C3_amended_batch_validation [] " 5, 7 ").2.2 (by decide)⟩

/-! ## Store loading and legacy migration (`load_store`) -/

/-- A possibly partial stored record (the non-legacy branch of `load_store`
fills missing fields with `setdefault`). -/
structure RecDoc where
  seq_max : Option Int
  seq_media : Option ℚ
  seq_n : Option Nat
  aus_max : Option Int
  aus_media : Option ℚ
  aus_n : Option Nat
  deriving Repr, DecidableEq

/-- A value of the stored document: a bare integer (legacy format) or a
record. -/
inductive StoreVal where
  | intVal : Int → StoreVal
  | recVal : RecDoc → StoreVal
  deriving Repr, DecidableEq

/-- Python `isinstance(v, int)`. -/
def isIntVal : StoreVal → Bool
  | .intVal _ => true
  | .recVal _ => false

/-- Python `int(old.get(t, 0))` in the migration branch. -/
def legacyGet (data : List (String × StoreVal)) (t : String) : Int :=
  match data.lookup t with
  | some (.intVal n) => n
  | _ => 0

/-- The `setdefault` chain: fill each missing field with 0. -/
def withDefaults (r : RecDoc) : Rec :=
  ⟨r.seq_max.getD 0, r.seq_media.getD 0, r.seq_n.getD 0,
   r.aus_max.getD 0, r.aus_media.getD 0, r.aus_n.getD 0⟩

/-- The record a migrated legacy entry becomes. -/
def legacyRec (n : Int) : Rec :=
  { seq_max := n, seq_media := 0, seq_n := 0,
    aus_max := 0, aus_media := 0, aus_n := 0 }

/-- Source `load_store` over the stored document (the API transport is
outside the core): if the document is non-empty and every value is a bare
integer, rebuild it with the legacy value as `seq_max` and all other fields
zero; otherwise apply `setdefault` per monitored category.  A bare integer
reaching the non-legacy branch is a Python `AttributeError`, embedded as
`none`. -/
def load_store (data : List (String × StoreVal)) :
    Option (List (String × Rec)) :=
  if !data.isEmpty && data.all (fun p => isIntVal p.2) then
    some (TIPOS.map (fun t => (t, legacyRec (legacyGet data t))))
  else
    TIPOS.mapM (fun t =>
      match data.lookup t with
      | none => some (t, withDefaults ⟨none, none, none, none, none, none⟩)
      | some (.recVal r) => some (t, withDefaults r)
      | some (.intVal _) => none)

/-- Looking up a key of a keyed map over a list containing it returns the
mapped value. -/
theorem lookup_map_self (l : List String) (f : String → Rec) (t : String)
    (ht : t ∈ l) :
    (l.map (fun x => (x, f x))).lookup t = some (f t) := by
  induction l with
  | nil => cases ht
  | cons a as ih =>
      by_cases h : t = a
      · subst h; simp [List.lookup]
      · rcases List.mem_cons.mp ht with h' | h'
        · exact absurd h' h
        · have hba : (t == a) = false := beq_eq_false_iff_ne.mpr h
          simpa [List.lookup, hba] using ih h'

/-- C8 (amended): a non-empty stored document whose values are all bare
integers is migrated in one load; every one of the 18 monitored categories
(the claim says 17, but `TIPOS` has 18 entries) is mapped to the six-field
record whose `seq_max` is the category's legacy integer (0 if absent) and
whose other five fields are zero. -/
theorem C8_legacy_migration (data : List (String × StoreVal))
    (hne : data ≠ []) (hall : data.all (fun p => isIntVal p.2) = true) :
    load_store data
      = some (TIPOS.map (fun t => (t, legacyRec (legacyGet data t)))) ∧
    TIPOS.length = 18 ∧
    (∀ t ∈ TIPOS, ∀ out, load_store data = some out →
      out.lookup t = some (legacyRec (legacyGet data t))) := by
  have hcond : (!data.isEmpty && data.all (fun p => isIntVal p.2)) = true := by
    simp [hall, List.isEmpty_eq_false.mpr hne]
  have hmain : load_store data
      = some (TIPOS.map (fun t => (t, legacyRec (legacyGet data t)))) := by
    simp [load_store, hcond]
  refine ⟨hmain, by decide, fun t ht out hout => ?_⟩
  rw [hmain] at hout
  obtain rfl : out = TIPOS.map (fun t => (t, legacyRec (legacyGet data t))) :=
    (Option.some.injEq _ _ ▸ hout).symm
  exact lookup_map_self TIPOS _ t ht

/-- C8 counterexample: there are 18 monitored categories, not 17, so the
claim's "every one of the 17 monitored categories" miscounts the store's
keys. -/
theorem C8_category_count :
    TIPOS.length = 18 ∧ TIPOS.length ≠ 17 := by decide

/-- Witness for C8 at the one-entry legacy document mapping Vermelho to 7. -/
theorem C8_legacy_migration_witness :
    load_store [("Vermelho", StoreVal.intVal 7)]
      = some (TIPOS.map (fun t =>
          (t, legacyRec (legacyGet [("Vermelho", StoreVal.intVal 7)] t)))) :=
  (C8_legacy_migration [("Vermelho", StoreVal.intVal 7)]
      (by decide) (by decide)).1

/-! ## Absence ranking table and primary suggestion -/

/-- One row of `df_aus`: category, current gap (Rodadas ausente), mean gap
(Média ausência; shown rounded to 2 decimals in the UI, kept exact here
since nothing downstream reads it), max gap (Máxima ausência), signal and
justification from `classify_abs`. -/
structure Row where
  tipo : String
  aus : Nat
  ausMedia : ℚ
  ausMax : Int
  sinal : String
  motivo : String
  deriving Repr, DecidableEq

/-- Build the `df_aus` row of one category from the post-pass state. -/
def mkAusRow (st : String → CatState) (t : String) : Row :=
  { tipo := t, aus := (st t).cur_gap, ausMedia := (st t).record.aus_media,
    ausMax := (st t).record.aus_max,
    sinal := (classify_abs t (st t).cur_gap).1,
    motivo := (classify_abs t (st t).cur_gap).2 }

/-- The unsorted `df_aus` rows, in `TIPOS` order. -/
def ausRowsOf (st : String → CatState) : List Row := TIPOS.map (mkAusRow st)

/-- Strict lexicographic order on codepoint lists (Python string `<`). -/
def natListLt : List Nat → List Nat → Bool
  | [], [] => false
  | [], _ :: _ => true
  | _ :: _, [] => false
  | a :: as, b :: bs =>
      if a < b then true else if b < a then false else natListLt as bs

theorem natListLt_irrefl : ∀ as, natListLt as as = false := by
  intro as
  induction as with
  | nil => rfl
  | cons a as ih => simp [natListLt, ih]

theorem natListLt_asymm :
    ∀ as bs, natListLt as bs = true → natListLt bs as = false := by
  intro as
  induction as with
  | nil =>
      intro bs h
      cases bs with
      | nil => simpa [natListLt] using h
      | cons b bs => rfl
  | cons a as ih =>
      intro bs h
      cases bs with
      | nil => simpa [natListLt] using h
      | cons b bs =>
          simp only [natListLt] at h ⊢
          split_ifs at h ⊢ with h1 h2 h3 h4
          all_goals first | rfl | omega | exact ih bs h | cases h

theorem natListLt_eq_of_false :
    ∀ as bs, natListLt as bs = false → natListLt bs as = false → as = bs := by
  intro as
  induction as with
  | nil =>
      intro bs h _
      cases bs with
      | nil => rfl
      | cons b bs => simp [natListLt] at h
  | cons a as ih =>
      intro bs h h'
      cases bs with
      | nil => simp [natListLt] at h'
      | cons b bs =>
          simp only [natListLt] at h h'
          by_cases h1 : a < b
          · rw [if_pos h1] at h
            cases h
          · by_cases h2 : b < a
            · rw [if_pos h2] at h'
              cases h'
            · rw [if_neg h1, if_neg h2] at h
              rw [if_neg h2, if_neg h1] at h'
              have hab : a = b := by omega
              rw [hab, ih bs h h']

theorem natListLt_trans :
    ∀ as bs cs, natListLt as bs = true → natListLt bs cs = true →
      natListLt as cs = true := by
  intro as
  induction as with
  | nil =>
      intro bs cs h h'
      cases bs with
      | nil => simpa [natListLt] using h
      | cons b bs =>
          cases cs with
          | nil => simpa [natListLt] using h'
          | cons c cs => rfl
  | cons a as ih =>
      intro bs cs h h'
      cases bs with
      | nil => simpa [natListLt] using h
      | cons b bs =>
          cases cs with
          | nil => simpa [natListLt] using h'
          | cons c cs =>
              simp only [natListLt] at h h' ⊢
              split_ifs at h h' ⊢ with h1 h2 h3 h4 h5 h6
              all_goals first
                | rfl | omega | (exact ih bs cs h h') | cases h | cases h'

/-- Codepoint list of a row's signal label, the first sort key. -/
def sinalKey (a : Row) : List Nat := a.sinal.data.map Char.toNat

/-- Sort comparison of `df_aus.sort_values(["Sinal_aus","Rodadas ausente",
"Máxima ausência"], ascending=[True,False,False])`: signal ascending by
code-point order (pandas compares Python strings), then current gap
descending, then max gap descending. -/
def rowLEb (a b : Row) : Bool :=
  if natListLt (sinalKey a) (sinalKey b) then true
  else if natListLt (sinalKey b) (sinalKey a) then false
  else if b.aus < a.aus then true
  else if a.aus < b.aus then false
  else decide (b.ausMax ≤ a.ausMax)

/-- The sort relation as a proposition. -/
def rowLE (a b : Row) : Prop := rowLEb a b = true

instance rowLE.instDecidable : DecidableRel rowLE :=
  fun a b => inferInstanceAs (Decidable (rowLEb a b = true))

/-- The sort comparison as a lexicographic proposition. -/
theorem rowLEb_iff (a b : Row) : rowLEb a b = true ↔
    natListLt (sinalKey a) (sinalKey b) = true ∨
    (sinalKey a = sinalKey b ∧
      (b.aus < a.aus ∨ (a.aus = b.aus ∧ b.ausMax ≤ a.ausMax))) := by
  unfold rowLEb
  by_cases h1 : natListLt (sinalKey a) (sinalKey b) = true
  · simp [h1]
  · rw [if_neg h1]
    by_cases h2 : natListLt (sinalKey b) (sinalKey a) = true
    · rw [if_pos h2]
      simp only [Bool.false_eq_true, false_iff]
      rintro (h | ⟨heq, _⟩)
      · exact h1 h
      · rw [heq] at h2
        rw [natListLt_irrefl] at h2
        cases h2
    · rw [if_neg h2]
      have heq := natListLt_eq_of_false _ _
        (Bool.not_eq_true _ ▸ h1 : _) (Bool.not_eq_true _ ▸ h2 : _)
      rw [heq]
      simp only [natListLt_irrefl, Bool.false_eq_true, false_or,
        eq_self_iff_true, true_and]
      split_ifs with h3 h4
      · exact iff_of_true rfl (Or.inl h3)
      · simp only [Bool.false_eq_true, false_iff]
        rintro (hx | ⟨hx, _⟩) <;> omega
      · simp only [decide_eq_true_eq]
        constructor
        · intro hm
          exact Or.inr ⟨by omega, hm⟩
        · rintro (hx | ⟨hx, hm⟩)
          · omega
          · exact hm

theorem rowLE_refl (a : Row) : rowLE a a := by
  rw [rowLE, rowLEb_iff]
  exact Or.inr ⟨rfl, Or.inr ⟨rfl, le_refl _⟩⟩

instance rowLE.instIsTotal : IsTotal Row rowLE := by
  constructor
  intro a b
  rw [rowLE, rowLE, rowLEb_iff, rowLEb_iff]
  by_cases h1 : natListLt (sinalKey a) (sinalKey b) = true
  · exact Or.inl (Or.inl h1)
  · by_cases h2 : natListLt (sinalKey b) (sinalKey a) = true
    · exact Or.inr (Or.inl h2)
    · have heq := natListLt_eq_of_false _ _
        (Bool.not_eq_true _ ▸ h1 : _) (Bool.not_eq_true _ ▸ h2 : _)
      rcases le_total b.ausMax a.ausMax with hm | hm
      · by_cases ha : a.aus = b.aus
        · exact Or.inl (Or.inr ⟨heq, Or.inr ⟨ha, hm⟩⟩)
        · rcases Nat.lt_or_ge a.aus b.aus with hx | hx
          · exact Or.inr (Or.inr ⟨heq.symm, Or.inl hx⟩)
          · exact Or.inl (Or.inr ⟨heq, Or.inl (by omega)⟩)
      · by_cases ha : a.aus = b.aus
        · exact Or.inr (Or.inr ⟨heq.symm, Or.inr ⟨ha.symm, hm⟩⟩)
        · rcases Nat.lt_or_ge a.aus b.aus with hx | hx
          · exact Or.inr (Or.inr ⟨heq.symm, Or.inl hx⟩)
          · exact Or.inl (Or.inr ⟨heq, Or.inl (by omega)⟩)

instance rowLE.instIsTrans : IsTrans Row rowLE := by
  constructor
  intro a b c hab hbc
  rw [rowLE, rowLEb_iff] at hab hbc ⊢
  rcases hab with hab | ⟨eab, hab⟩ <;> rcases hbc with hbc | ⟨ebc, hbc⟩
  · exact Or.inl (natListLt_trans _ _ _ hab hbc)
  · exact Or.inl (ebc ▸ hab)
  · exact Or.inl (eab ▸ hbc)
  · refine Or.inr ⟨eab.trans ebc, ?_⟩
    rcases hab with hab | ⟨ea, ha⟩ <;> rcases hbc with hbc | ⟨eb, hb⟩
    · exact Or.inl (by omega)
    · exact Or.inl (by omega)
    · exact Or.inl (by omega)
    · exact Or.inr ⟨ea.trans eb, le_trans hb ha⟩

/-- The multi-key sort of `sort_values` (numpy lexsort is stable; insertion
sort by a reflexive `≤` is the same stable sort). -/
def sortRows (l : List Row) : List Row := List.insertionSort rowLE l

/-- The sorted absence table `df_aus`. -/
def df_aus (st : String → CatState) : List Row := sortRows (ausRowsOf st)

/-- The `isin` filter list of `sugestao_principal`. -/
def nonNeutralAbs : List String :=
  ["oposto", "retorno", "retorno_médio", "retorno_forte", "retorno_extremo"]

/-- The fixed axis priority of `sugestao_principal`. -/
def ordem : List String :=
  ["Cavalos", "Setor", "Dúzia", "Coluna", "Metade", "Paridade", "Cor"]

/-- The `for grp in ordem` loop: first axis whose sub-table is non-empty
yields its first (pre-sorted) row. -/
def firstAxisPick : List String → List Row → Option Row
  | [], _ => none
  | g :: gs, cand =>
      match cand.filter (fun r => grupo_de r.tipo = g) with
      | [] => firstAxisPick gs cand
      | r :: _ => some r

/-- Source `sugestao_principal`, reduced to the picked row (the stake text
built from the pick on lines 529-554 is presentational). -/
def sugestao_principal (rows : List Row) : Option Row :=
  let cand := rows.filter (fun r => nonNeutralAbs.contains r.sinal)
  if cand.isEmpty then none else firstAxisPick ordem cand

/-! ## Properties of the primary suggestion -/

/-- Every label `classify_abs` can produce. -/
theorem classify_abs_labels (t : String) (a : Nat) :
    (classify_abs t a).1 ∈
      (["neutro", "oposto", "retorno", "retorno_médio", "retorno_forte",
        "retorno_extremo"] : List String) := by
  by_cases hg : grupo_de t = "Cor" ∨ grupo_de t = "Paridade" ∨ grupo_de t = "Metade"
  · simp only [classify_abs, if_pos hg]
    split
    · simp
    · split_ifs <;> simp
  · simp only [classify_abs, if_neg hg]
    split
    · simp
    · split_ifs <;> simp

/-- Sorting does not change the rows. -/
theorem df_aus_mem_iff (st : String → CatState) (r : Row) :
    r ∈ df_aus st ↔ r ∈ ausRowsOf st :=
  (List.perm_insertionSort rowLE (ausRowsOf st)).mem_iff

/-- Every row of the absence table is the row of a monitored category, so
its signal is the classification of its own gap. -/
theorem ausRow_fields (st : String → CatState) (r : Row)
    (h : r ∈ ausRowsOf st) :
    r.sinal = (classify_abs r.tipo r.aus).1 ∧ r.tipo ∈ TIPOS := by
  obtain ⟨t, ht, rfl⟩ := List.mem_map.mp h
  exact ⟨rfl, ht⟩

/-- Every monitored category's axis occurs in the suggestion priority. -/
theorem grupo_mem_ordem : ∀ t ∈ TIPOS, grupo_de t ∈ ordem := by decide

/-- A non-neutral signal of a table row passes the `isin` filter. -/
theorem sinal_contains_of_ne (st : String → CatState) (r : Row)
    (hr : r ∈ df_aus st) (hne : r.sinal ≠ "neutro") :
    nonNeutralAbs.contains r.sinal = true := by
  obtain ⟨hs, ht⟩ := ausRow_fields st r ((df_aus_mem_iff st r).mp hr)
  have hlab := classify_abs_labels r.tipo r.aus
  rw [← hs] at hlab
  simp only [List.mem_cons, List.not_mem_nil, or_false] at hlab
  rcases hlab with h | h | h | h | h | h <;> simp [nonNeutralAbs, h] at hne ⊢

/-- The filter passes only non-neutral labels. -/
theorem ne_neutro_of_contains (s : String)
    (h : nonNeutralAbs.contains s = true) : s ≠ "neutro" := by
  simp only [nonNeutralAbs] at h
  simp at h
  rcases h with h | h | h | h | h <;> simp [h]

/-- If the axis loop finds nothing, every axis filter over the candidate
table is empty. -/
theorem firstAxisPick_eq_none (gs : List String) (cand : List Row)
    (h : firstAxisPick gs cand = none) :
    ∀ g ∈ gs, cand.filter (fun x => grupo_de x.tipo = g) = [] := by
  induction gs with
  | nil => simp
  | cons g' gs ih =>
      intro g hg
      unfold firstAxisPick at h
      rcases hf : cand.filter (fun x => grupo_de x.tipo = g') with _ | ⟨r0, rest⟩
      · rw [hf] at h
        rcases List.mem_cons.mp hg with rfl | hg'
        · exact hf
        · exact ih h g hg'
      · rw [hf] at h
        cases h

/-- If the axis loop picks a row, that axis is the first with a non-empty
filter and the row heads that filter. -/
theorem firstAxisPick_eq_some (gs : List String) (cand : List Row) (r : Row)
    (h : firstAxisPick gs cand = some r) :
    ∃ l1 g l2, gs = l1 ++ g :: l2 ∧
      (∀ g' ∈ l1, cand.filter (fun x => grupo_de x.tipo = g') = []) ∧
      ∃ rest, cand.filter (fun x => grupo_de x.tipo = g) = r :: rest := by
  induction gs with
  | nil => cases h
  | cons g' gs ih =>
      unfold firstAxisPick at h
      rcases hf : cand.filter (fun x => grupo_de x.tipo = g') with _ | ⟨r0, rest⟩
      · rw [hf] at h
        obtain ⟨l1, g, l2, hsplit, hempty, rest, hfilter⟩ := ih h
        refine ⟨g' :: l1, g, l2, by rw [hsplit]; rfl, ?_, rest, hfilter⟩
        intro gg hgg
        rcases List.mem_cons.mp hgg with rfl | hh
        · exact hf
        · exact hempty gg hh
      · rw [hf] at h
        obtain rfl : r0 = r := by injection h
        exact ⟨[], g', gs, rfl, by simp, rest, hf⟩

/-- The head of a filter of a sorted list is below every filtered element. -/
theorem sorted_filter_head_min (l : List Row) (hs : l.Pairwise rowLE)
    (p : Row → Bool) (r : Row) (rest : List Row)
    (h : l.filter p = r :: rest) :
    ∀ x ∈ l.filter p, rowLE r x := by
  have hsub : (l.filter p).Pairwise rowLE :=
    List.Pairwise.sublist (List.filter_sublist l) hs
  rw [h] at hsub
  intro x hx
  rw [h] at hx
  rcases List.mem_cons.mp hx with rfl | hx'
  · exact rowLE_refl x
  · exact (List.pairwise_cons.mp hsub).1 x hx'

/-- Selection logic of `sugestao_principal` over any sorted table whose
rows carry valid signals and monitored axes. -/
theorem sugestao_principal_spec (rows : List Row)
    (hsorted : rows.Pairwise rowLE)
    (hlab : ∀ r ∈ rows, r.sinal ≠ "neutro" →
      nonNeutralAbs.contains r.sinal = true)
    (hgrp : ∀ r ∈ rows, grupo_de r.tipo ∈ ordem) :
    (sugestao_principal rows = none → ∀ r ∈ rows, r.sinal = "neutro") ∧
    (∀ r, sugestao_principal rows = some r →
      r ∈ rows ∧ r.sinal ≠ "neutro" ∧
      (∃ l1 l2, ordem = l1 ++ grupo_de r.tipo :: l2 ∧
        (∀ g ∈ l1, ∀ x ∈ rows, grupo_de x.tipo = g → x.sinal = "neutro")) ∧
      (∀ x ∈ rows, grupo_de x.tipo = grupo_de r.tipo →
        x.sinal ≠ "neutro" → rowLE r x)) := by
  constructor
  · intro hnone r hr
    by_contra hne
    have hrc : r ∈ rows.filter (fun x => nonNeutralAbs.contains x.sinal) :=
      List.mem_filter.mpr ⟨hr, hlab r hr hne⟩
    simp only [sugestao_principal] at hnone
    split_ifs at hnone with hE
    · rw [List.isEmpty_iff] at hE
      rw [hE] at hrc
      cases hrc
    · have hfa := firstAxisPick_eq_none ordem _ hnone
      have hg := hgrp r hr
      have hmemf : r ∈ (rows.filter
          (fun x => nonNeutralAbs.contains x.sinal)).filter
            (fun x => grupo_de x.tipo = grupo_de r.tipo) :=
        List.mem_filter.mpr ⟨hrc, by simp⟩
      rw [hfa _ hg] at hmemf
      cases hmemf
  · intro r hsome
    simp only [sugestao_principal] at hsome
    by_cases hE : (rows.filter
        (fun x => nonNeutralAbs.contains x.sinal)).isEmpty = true
    · rw [if_pos hE] at hsome
      exact Option.noConfusion hsome
    · rw [if_neg hE] at hsome
      obtain ⟨l1, g, l2, hsplit, hempty, rest, hfilter⟩ :=
        firstAxisPick_eq_some ordem _ r hsome
      have hrf : r ∈ (rows.filter
          (fun x => nonNeutralAbs.contains x.sinal)).filter
            (fun x => grupo_de x.tipo = g) := by
        rw [hfilter]
        exact List.mem_cons_self _ _
      obtain ⟨hrcand, hrg⟩ := List.mem_filter.mp hrf
      obtain ⟨hr_rows, hr_sin⟩ := List.mem_filter.mp hrcand
      have hgr : grupo_de r.tipo = g := of_decide_eq_true hrg
      have hne : r.sinal ≠ "neutro" := ne_neutro_of_contains _ hr_sin
      have hcand_sorted : (rows.filter
          (fun x => nonNeutralAbs.contains x.sinal)).Pairwise rowLE :=
        List.Pairwise.sublist (List.filter_sublist _) hsorted
      refine ⟨hr_rows, hne, ⟨l1, l2, by rw [hgr]; exact hsplit, ?_⟩, ?_⟩
      · intro g' hg' x hx hgx
        by_contra hxne
        have hxc : x ∈ rows.filter (fun y => nonNeutralAbs.contains y.sinal) :=
          List.mem_filter.mpr ⟨hx, hlab x hx hxne⟩
        have hxf : x ∈ (rows.filter
            (fun y => nonNeutralAbs.contains y.sinal)).filter
              (fun y => grupo_de y.tipo = g') :=
          List.mem_filter.mpr ⟨hxc, by simp [hgx]⟩
        rw [hempty g' hg'] at hxf
        cases hxf
      · intro x hx hgx hxne
        have hxc : x ∈ rows.filter (fun y => nonNeutralAbs.contains y.sinal) :=
          List.mem_filter.mpr ⟨hx, hlab x hx hxne⟩
        have hxf : x ∈ (rows.filter
            (fun y => nonNeutralAbs.contains y.sinal)).filter
              (fun y => grupo_de y.tipo = g) :=
          List.mem_filter.mpr ⟨hxc, by simp [hgx, hgr]⟩
        exact sorted_filter_head_min _ hcand_sorted _ r rest hfilter x hxf

/-- C4 (amended): the primary suggestion considers only rows whose absence
tier is non-neutral; the first axis of the priority list with a non-neutral
candidate wins (strict priority); within that axis the pick is minimal in
the pre-sorted order — ascending code-point order of the signal label, then
longer current gap, then larger historical max gap — which coincides with
strongest-first among the retorno_médio/forte/extremo labels but places
`oposto` before `retorno`; if every tier is neutral no suggestion is
produced. -/
theorem C4_primary_suggestion_selection (st : String → CatState) :
    (sugestao_principal (df_aus st) = none →
      ∀ r ∈ df_aus st, r.sinal = "neutro") ∧
    (∀ r, sugestao_principal (df_aus st) = some r →
      r ∈ df_aus st ∧ r.sinal ≠ "neutro" ∧
      (∃ l1 l2, ordem = l1 ++ grupo_de r.tipo :: l2 ∧
        (∀ g ∈ l1, ∀ x ∈ df_aus st, grupo_de x.tipo = g →
          x.sinal = "neutro")) ∧
      (∀ x ∈ df_aus st, grupo_de x.tipo = grupo_de r.tipo →
        x.sinal ≠ "neutro" → rowLE r x)) :=
  sugestao_principal_spec (df_aus st)
    (List.sorted_insertionSort rowLE (ausRowsOf st))
    (fun r hr => sinal_contains_of_ne st r hr)
    (fun r hr => grupo_mem_ordem r.tipo
      (ausRow_fields st r ((df_aus_mem_iff st r).mp hr)).2)

/-- A 17-outcome history that leaves Dúzia 1 with a 16-round gap (tier
`retorno`) and Dúzia 2 with a 6-round gap (tier `oposto`) while every
Cavalos and Setor category stays neutral. -/
def hist17 : List Nat :=
  [1, 14, 14, 14, 14, 14, 14, 14, 14, 14, 14, 26, 31, 25, 36, 28, 27]

/-- Post-pass state of `hist17` from all-zero records. -/
def st17 : String → CatState := ledgerRun (stateOfStore (fun _ => zeroRec)) hist17

set_option maxHeartbeats 1600000 in
/-- C4 counterexample: on `hist17` the primary suggestion picks Dúzia 2
with tier `oposto` (gap 6), not Dúzia 1 whose tier `retorno` (gap 16) is
the strongest absence signal of the same axis — `retorno` fires only at
gaps strictly beyond the whole `oposto` band (per C6, at least 16 vs 5..15
on the Dúzia axis).  The pick follows the ascending code-point sort of the
labels, in which "oposto" precedes "retorno". -/
theorem C4_counterexample :
    (sugestao_principal (df_aus st17)).map Row.tipo = some "Dúzia 2" ∧
    (sugestao_principal (df_aus st17)).map Row.sinal = some "oposto" ∧
    (st17 "Dúzia 2").cur_gap = 6 ∧
    (st17 "Dúzia 1").cur_gap = 16 ∧
    (mkAusRow st17 "Dúzia 1").sinal = "retorno" ∧
    grupo_de "Dúzia 1" = grupo_de "Dúzia 2" := by
  decide

set_option maxHeartbeats 1600000 in
/-- Witness for C4 (amended) on `hist17`: the picked Dúzia 2 row is a
non-neutral table row and precedes the Dúzia 1 row in the sort order. -/
theorem C4_primary_suggestion_selection_witness :
    mkAusRow st17 "Dúzia 2" ∈ df_aus st17 ∧
    (mkAusRow st17 "Dúzia 2").sinal ≠ "neutro" ∧
    rowLE (mkAusRow st17 "Dúzia 2") (mkAusRow st17 "Dúzia 1") := by
  have h := (C4_primary_suggestion_selection st17).2 (mkAusRow st17 "Dúzia 2") rfl
  refine ⟨h.1, h.2.1, ?_⟩
  refine h.2.2.2 (mkAusRow st17 "Dúzia 1") ?_ (by decide) (by decide)
  exact (df_aus_mem_iff st17 _).mpr
    (List.mem_map_of_mem _ (by decide : "Dúzia 1" ∈ TIPOS))

/-! ## Panel pipeline and the minimum-history gate -/

/-- The module flow after the Inserir handler: `if len(numeros) < 5:
st.stop()` halts before the ledger pass, the consolidated `save_store`, the
tables and the suggestions; otherwise the pass runs and the post-pass store,
the absence table and the primary pick are produced. -/
def panel (hist : List Nat) (store0 : String → Rec) :
    Option ((String → Rec) × List Row × Option Row) :=
  if hist.length < 5 then none
  else
    some (fun t => (ledgerRun (stateOfStore store0) hist t).record,
      df_aus (ledgerRun (stateOfStore store0) hist),
      sugestao_principal (df_aus (ledgerRun (stateOfStore store0) hist)))

/-- C10: the panel stops before the ledger pass exactly when fewer than 5
numbers have been entered — no fold into the durable records, no
consolidated save, no table and no suggestion is produced — and with 5 or
more numbers the full pipeline output is produced.  (The spec presents the
Ledger as total over any sequence and does not mention this gate.) -/
theorem C10_minimum_history_gate (hist : List Nat) (store0 : String → Rec) :
    (panel hist store0 = none ↔ hist.length < 5) ∧
    (5 ≤ hist.length →
      panel hist store0
        = some (fun t => (ledgerRun (stateOfStore store0) hist t).record,
            df_aus (ledgerRun (stateOfStore store0) hist),
            sugestao_principal (df_aus (ledgerRun (stateOfStore store0) hist)))) := by
  unfold panel
  split_ifs with h
  · simp [h]
  · simp [h]

/-- Witness for C10: four numbers stop the pipeline, five let it run. -/
theorem C10_minimum_history_gate_witness :
    panel [1, 2, 3, 4] (fun _ => zeroRec) = none ∧
    panel [1, 2, 3, 4, 5] (fun _ => zeroRec)
      = some (fun t =>
            (ledgerRun (stateOfStore fun _ => zeroRec) [1, 2, 3, 4, 5] t).record,
          df_aus (ledgerRun (stateOfStore fun _ => zeroRec) [1, 2, 3, 4, 5]),
          sugestao_principal
            (df_aus (ledgerRun (stateOfStore fun _ => zeroRec) [1, 2, 3, 4, 5]))) :=
  ⟨(C10_minimum_history_gate [1, 2, 3, 4] (fun _ => zeroRec)).1.mpr (by decide),
   (C10_minimum_history_gate [1, 2, 3, 4, 5] (fun _ => zeroRec)).2 (by decide)⟩

end Roleta
